import Mathlib

/-!
Verification development for the TDC oracle tutorial
(`tutorials/TDC_105_Oracle.ipynb`).

The repository fragment contains only the tutorial notebook; the oracle
library it exercises (the `tdc` package) and the cheminformatics / ML
primitives it delegates to (SMILES validity checking, canonicalization,
fingerprints, neural feature activations, physicochemical descriptors)
are not part of the source tree.  Those parts are therefore modelled
from the specification's description of the interface and of each named
metric, with the external primitives kept abstract as function
parameters.  Where a definition is modelled this way its doc comment
says so and names what is missing.
-/

namespace TDC

/-- A molecule representation: a chemical-structure encoding string (SMILES). -/
abbrev SMILES := String

/-- Modelled from the spec: the call operation accepts "either a single
string or an ordered sequence of strings".  The `tdc` package's
`Oracle.__call__` is not in the source tree. -/
inductive OracleInput where
  | single (s : SMILES)
  | batch (l : List SMILES)

/-- Modelled from the spec: the call operation returns "either a single
number or an ordered sequence of numbers of matching length". -/
inductive OracleOutput where
  | single (x : ℚ)
  | batch (l : List ℚ)

/-- Modelled from the spec: evaluating an oracle on an ordered sequence of
SMILES strings, scoring each element in order. -/
def evalBatch (score : SMILES → ℚ) : List SMILES → List ℚ
  | [] => []
  | s :: rest => score s :: evalBatch score rest

/-- Modelled from the spec: the call operation of an oracle, dispatching on
whether the input is a single string or an ordered sequence of strings; the
underlying single-molecule scoring function `score` is the external library's
evaluator. -/
def oracleCall (score : SMILES → ℚ) : OracleInput → OracleOutput
  | OracleInput.single s => OracleOutput.single (score s)
  | OracleInput.batch l => OracleOutput.batch (evalBatch score l)

theorem evalBatch_eq_map (score : SMILES → ℚ) (l : List SMILES) :
    evalBatch score l = l.map score := by
  induction l with
  | nil => rfl
  | cons s rest ih => simp [evalBatch, ih]

/-- C1: for every oracle, the call operation applied to a single SMILES
string returns a single number, and applied to an ordered sequence of n
SMILES strings returns an ordered sequence of numbers of length exactly n. -/
theorem oracle_call_shape :
    ∀ (score : SMILES → ℚ) (s : SMILES) (l : List SMILES),
      oracleCall score (OracleInput.single s) = OracleOutput.single (score s) ∧
      ∃ out, oracleCall score (OracleInput.batch l) = OracleOutput.batch out ∧
        out.length = l.length := by
  intro score s l
  refine ⟨rfl, evalBatch score l, rfl, ?_⟩
  rw [evalBatch_eq_map]
  exact List.length_map l score

/-- C2: the batch output is aligned with the input: calling an oracle on a
list equals mapping the single-string call over the list, and the i-th
output score is the score of the i-th input string. -/
theorem oracle_batch_aligned :
    ∀ (score : SMILES → ℚ) (l : List SMILES),
      oracleCall score (OracleInput.batch l) = OracleOutput.batch (l.map score) ∧
      ∀ i : ℕ, (evalBatch score l)[i]? = (l[i]?).map score := by
  intro score l
  constructor
  · simp [oracleCall, evalBatch_eq_map]
  · intro i
    rw [evalBatch_eq_map]
    exact List.getElem?_map score l i

/-! ### Distribution-learning metric functions

Modelled from the spec's descriptions of the named metrics.  Each is a
fraction; the percentage of an empty collection is undefined (a division
by zero in the external library), hence the `Option` results. -/

/-- Modelled from the spec: "Validity is the percentage of the valid
molecules in the whole generated molecules".  The chemical validity check
of a single SMILES is external cheminformatics, abstracted as `isValid`. -/
def validity (isValid : SMILES → Bool) (l : List SMILES) : Option ℚ :=
  if l.length = 0 then none
  else some ((l.countP isValid : ℚ) / (l.length : ℚ))

/-- Modelled from the spec: "Uniqueness is the percentage of different
canonical SMILES in the whole generated molecules".  Canonicalization is
external cheminformatics, abstracted as `canon`. -/
def uniqueness (canon : SMILES → SMILES) (l : List SMILES) : Option ℚ :=
  if l.length = 0 then none
  else some ((((l.map canon).dedup).length : ℚ) / (l.length : ℚ))

/-- Modelled from the spec: "Novelty is the percentage of the canonical
SMILES that are not in the training set": the fraction of the generated
set's distinct canonical SMILES that do not occur among the training
set's canonical SMILES. -/
def novelty (canon : SMILES → SMILES) (gen train : List SMILES) : Option ℚ :=
  let genSet := (gen.map canon).dedup
  let trainSet := (train.map canon).dedup
  if genSet.length = 0 then none
  else some (((genSet.filter (fun s => decide (s ∉ trainSet))).length : ℚ) /
    (genSet.length : ℚ))

/-- A molecular fingerprint, abstracted as the finite set of its active bit
positions; computing it from a SMILES string is external cheminformatics. -/
abbrev Fingerprint := Finset ℕ

/-- Modelled from the spec: "Tanimoto similarity: a fingerprint-based
structural similarity measure between two molecules": the size of the
intersection of the fingerprints over the size of their union. -/
def tanimoto (a b : Fingerprint) : ℚ :=
  if (a ∪ b).card = 0 then 0
  else ((a ∩ b).card : ℚ) / ((a ∪ b).card : ℚ)

/-- All unordered pairs of elements of a list, each pair once. -/
def pairList {α : Type _} : List α → List (α × α)
  | [] => []
  | x :: rest => rest.map (fun y => (x, y)) ++ pairList rest

/-- Modelled from the spec: "Diversity measures the internal distance among
the generated molecules": the average pairwise Tanimoto distance of the
molecules' fingerprints. -/
def diversity (fp : SMILES → Fingerprint) (l : List SMILES) : Option ℚ :=
  let ps := pairList l
  if ps.length = 0 then none
  else some ((ps.map (fun p => 1 - tanimoto (fp p.1) (fp p.2))).sum / (ps.length : ℚ))

/-! ### The notebook's concrete inputs -/

/-- The batch of molecules bound to `smiles_lst` in the notebook. -/
def notebook_smiles_lst : List SMILES :=
  ["CC(C)(C)[C@H]1CCc2c(sc(NC(=O)COc3ccc(Cl)cc3)c2C(N)=O)C1",
   "C[C@@H]1CCc2c(sc(NC(=O)c3ccco3)c2C(N)=O)C1",
   "CCNC(=O)c1ccc(NC(=O)N2CC[C@H](C)[C@H](O)C2)c(C)c1",
   "C[C@@H]1CCN(C(=O)CCCc2ccccc2)C[C@@H]1O"]

/-- The single SMILES string bound to `osimertinib_smiles` in the notebook. -/
def osimertinib_smiles : SMILES :=
  "COc1cc(N(C)CCN(C)C)c(NC(=O)C=C)cc1Nc2nccc(n2)c3cn(C)c4ccccc34"

/-- The SMILES string bound to `tadalafil_smiles` in the notebook. -/
def tadalafil_smiles : SMILES :=
  "O=C1N(CC(N2C1CC3=C(C2C4=CC5=C(OCO5)C=C4)NC6=C3C=CC=C6)=O)C"

/-- The SMILES string bound to `sildenafil_smiles` in the notebook. -/
def sildenafil_smiles : SMILES :=
  "CCCC1=NN(C2=C1N=C(NC2=O)C3=C(C=CC(=C3)S(=O)(=O)N4CCN(CC4)C)OCC)C"

/-! ### Distance-style metrics (real-valued) -/

noncomputable section

/-- Mean of a list of reals (the empty list is guarded against by callers). -/
def listMean (l : List ℝ) : ℝ := l.sum / (l.length : ℝ)

/-- Population variance of a list of reals. -/
def listVar (l : List ℝ) : ℝ :=
  ((l.map (fun x => (x - listMean l) ^ 2)).sum) / (l.length : ℝ)

/-- Fréchet distance between two one-dimensional Gaussians given by their
means and variances. -/
def frechetGauss (m1 v1 m2 v2 : ℝ) : ℝ :=
  (m1 - m2) ^ 2 + v1 + v2 - 2 * Real.sqrt (v1 * v2)

/-- Modelled from the spec: `fcd_distance` (Fréchet ChemNet Distance), "a
distributional distance metric between two sets of molecules using
neural-network-derived feature activations".  The ChemNet activation map is
external, abstracted as `feat` into `d` feature coordinates; the distance is
the Fréchet distance between the two sets' activation statistics, taken
coordinatewise (diagonal covariance).  Undefined when either set is empty. -/
def fcd_distance (d : ℕ) (feat : SMILES → Fin d → ℝ) (gen train : List SMILES) :
    Option ℝ :=
  if gen.length = 0 ∨ train.length = 0 then none
  else some (∑ i : Fin d, frechetGauss
    (listMean (gen.map (fun s => feat s i))) (listVar (gen.map (fun s => feat s i)))
    (listMean (train.map (fun s => feat s i))) (listVar (train.map (fun s => feat s i))))

/-- Empirical probability of descriptor value `b` in the list `l`. -/
def descProb (desc : SMILES → ℤ) (l : List SMILES) (b : ℤ) : ℝ :=
  ((l.countP (fun s => decide (desc s = b))) : ℝ) / (l.length : ℝ)

/-- Discrete KL divergence between the descriptor distributions of the two
sets, summed over the descriptor values realized in the generated set. -/
def descKL (desc : SMILES → ℤ) (gen train : List SMILES) : ℝ :=
  (((gen.map desc).dedup).map (fun b =>
    descProb desc gen b * Real.log (descProb desc gen b / descProb desc train b))).sum

/-- Modelled from the spec: `kl_divergence` compares "the probability
distributions of a series of physicochemical descriptors for the training
set and generated molecules"; the descriptor computation is external,
abstracted as `desc` (one representative descriptor).  The reported value is
exp(−KL), which is 1 when the two descriptor distributions agree.  Undefined
when either set is empty. -/
def kl_divergence (desc : SMILES → ℤ) (gen train : List SMILES) : Option ℝ :=
  if gen.length = 0 ∨ train.length = 0 then none
  else some (Real.exp (-(descKL desc gen train)))

/-! ### Meta oracles and their built-in counterparts -/

/-- Geometric mean of two scores. -/
def geomMean2 (x y : ℝ) : ℝ := Real.sqrt (x * y)

/-- Arithmetic mean of two scores. -/
def arithMean2 (x y : ℝ) : ℝ := (x + y) / 2

/-- Geometric mean of a list of scores. -/
def geomMeanList (l : List ℝ) : ℝ := l.prod ^ ((1 : ℝ) / (l.length : ℝ))

/-- Element symbols of a molecular formula paired with their atom counts. -/
abbrev FormulaCounts := List (String × ℕ)

/-- Reads a run of decimal digits at the head of a character list,
accumulating their value onto `acc`, and returns the value with the rest. -/
def parseDigits : List Char → ℕ → ℕ × List Char
  | c :: rest, acc =>
      if c.isDigit then parseDigits rest (acc * 10 + (c.toNat - 48)) else (acc, c :: rest)
  | [], acc => (acc, [])

/-- Modelled from the spec: reading a chemical formula string such as
"C7H8N2O2" ("the input to target_smiles should be a chemical formula") as
element symbols with atom counts: an element symbol is an uppercase letter
followed by lowercase letters, and an omitted count means 1.  The fuel
argument bounds the recursion by the length of the input. -/
def parseFormulaAux : ℕ → List Char → FormulaCounts
  | 0, _ => []
  | _ + 1, [] => []
  | fuel + 1, c :: rest =>
      let tail := rest.takeWhile (fun d => d.isLower)
      let rest1 := rest.dropWhile (fun d => d.isLower)
      let p := parseDigits rest1 0
      (String.mk (c :: tail), if p.1 = 0 then 1 else p.1) :: parseFormulaAux fuel p.2

/-- A molecular formula string read as element symbols with atom counts. -/
def parseFormula (s : String) : FormulaCounts := parseFormulaAux s.length s.data

/-- Modelled from the spec: the isomer scorer "measures a molecule's
similarity in terms of atom counter" to a target formula: a score-modifier
`countMod` (the external Gaussian modifier) applied to the difference between
the molecule's per-element atom count (external cheminformatics, abstracted
as `atomCount`) and the target's, aggregated by geometric mean. -/
def isomerScoreOf (countMod : ℤ → ℝ) (atomCount : SMILES → String → ℕ)
    (target : FormulaCounts) (m : SMILES) : ℝ :=
  geomMeanList (target.map (fun p => countMod ((atomCount m p.1 : ℤ) - (p.2 : ℤ))))

/-- Modelled from the spec: the built-in oracle `Isomer_C7H8N2O2`, whose
target atom counts are fixed to those of C7H8N2O2. -/
def isomer_c7h8n2o2 (countMod : ℤ → ℝ) (atomCount : SMILES → String → ℕ)
    (m : SMILES) : ℝ :=
  isomerScoreOf countMod atomCount [("C", 7), ("H", 8), ("N", 2), ("O", 2)] m

/-- Modelled from the spec: the `Isomer_Meta` oracle, configured by a target
formula given as a string through the `target_smiles` parameter. -/
def isomerMeta (countMod : ℤ → ℝ) (atomCount : SMILES → String → ℕ)
    (target_smiles : String) (m : SMILES) : ℝ :=
  isomerScoreOf countMod atomCount (parseFormula target_smiles) m

/-- Modelled from the spec: the "configuration bag of named parameters
(target molecule(s), fingerprint method, score-modifier function,
aggregation method)" accepted by the `Median_Meta` oracle. -/
structure MedianConfig where
  target1 : SMILES
  target2 : SMILES
  fp1 : String
  fp2 : String
  modifier_func1 : Option (ℝ → ℝ)
  modifier_func2 : Option (ℝ → ℝ)
  means : String

/-- Applying an optional score-modifier function; `none` means the score is
used unmodified. -/
def applyModifier (f : Option (ℝ → ℝ)) (x : ℝ) : ℝ :=
  match f with
  | none => x
  | some g => g x

/-- Modelled from the spec: the aggregation method selected by name. -/
def meansByName (name : String) (x y : ℝ) : ℝ :=
  if name = "geometric" then geomMean2 x y else arithMean2 x y

/-- Modelled from the spec: the built-in `median2` oracle, "the average score
of the molecule's Tanimoto similarity to Tadalafil and sildenafil": the
geometric mean of the molecule's ECFP6 Tanimoto similarity to each target.
The fingerprint computation is external, abstracted as a table `fps` from
method name to fingerprint function. -/
def median2 (fps : String → SMILES → Fingerprint) (m : SMILES) : ℝ :=
  geomMean2
    ((tanimoto (fps "ECFP6" tadalafil_smiles) (fps "ECFP6" m) : ℚ) : ℝ)
    ((tanimoto (fps "ECFP6" sildenafil_smiles) (fps "ECFP6" m) : ℚ) : ℝ)

/-- Modelled from the spec: the `Median_Meta` oracle: the similarity scores
to the two configured targets, computed with the configured fingerprint
methods, passed through the configured score modifiers, and aggregated with
the configured mean. -/
def medianMeta (fps : String → SMILES → Fingerprint) (cfg : MedianConfig)
    (m : SMILES) : ℝ :=
  meansByName cfg.means
    (applyModifier cfg.modifier_func1
      ((tanimoto (fps cfg.fp1 cfg.target1) (fps cfg.fp1 m) : ℚ) : ℝ))
    (applyModifier cfg.modifier_func2
      ((tanimoto (fps cfg.fp2 cfg.target2) (fps cfg.fp2 m) : ℚ) : ℝ))

end

/-! ### The notebook session as a state machine -/

/-- Modelled from the spec: the visible state of the notebook session: the
batch variable `smiles_lst` and the record of printed results.  The spec
demonstrates "no persistent state" beyond these bindings. -/
structure NotebookState where
  smiles_lst : List SMILES
  printed : List OracleOutput

/-- Modelled from the spec: one notebook step: an oracle — a pure function of
the list it is given — reads the current `smiles_lst`, computes an output,
and the notebook prints it. -/
def runStep (oracle : List SMILES → OracleOutput) (st : NotebookState) :
    NotebookState :=
  NotebookState.mk st.smiles_lst (st.printed ++ [oracle st.smiles_lst])

/-- Running a sequence of oracle calls on the notebook state, in order. -/
def runSteps (oracles : List (List SMILES → OracleOutput)) (st : NotebookState) :
    NotebookState :=
  match oracles with
  | [] => st
  | o :: rest => runSteps rest (runStep o st)

/-! ### The model-artifact download-and-cache step -/

/-- Modelled from the spec/notebook: the environment of a model-backed
oracle: the local copy of the model artifact, if one has been saved, and the
number of downloads performed so far.  The download mechanism itself is
external ("We download the model in the first time calling it, then save it
as local copy.  After that, we load the local copy when calling it."). -/
structure OracleEnv (A : Type _) where
  localCopy : Option A
  downloads : ℕ

/-- Modelled from the spec/notebook: instantiating a model-backed oracle:
when a local copy exists it is loaded, otherwise the artifact `fetch` served
by the remote is downloaded and saved as the local copy. -/
def instantiateOracle {A : Type _} (fetch : A) (env : OracleEnv A) :
    A × OracleEnv A :=
  match env.localCopy with
  | some a => (a, env)
  | none => (fetch, OracleEnv.mk (some fetch) (env.downloads + 1))

/-- Instantiating a model-backed oracle `n` times in sequence. -/
def instantiateN {A : Type _} (fetch : A) : ℕ → OracleEnv A → OracleEnv A
  | 0, env => env
  | n + 1, env => instantiateN fetch n (instantiateOracle fetch env).2

/-! ### Theorems about the meta oracles, the session state and the cache -/

theorem parseFormula_C7H8N2O2 :
    parseFormula "C7H8N2O2" = [("C", 7), ("H", 8), ("N", 2), ("O", 2)] := by
  decide

/-- C4: a meta oracle instantiated with the configuration parameters matching
a built-in oracle computes the same function as that built-in oracle:
`Isomer_Meta` at target formula C7H8N2O2 agrees with `Isomer_C7H8N2O2` on
every SMILES, and `Median_Meta` at targets (tadalafil, sildenafil) with ECFP6
fingerprints, no score modifiers and the geometric mean agrees with `median2`
on every SMILES. -/
theorem meta_oracle_matches_builtin :
    ∀ (countMod : ℤ → ℝ) (atomCount : SMILES → String → ℕ)
      (fps : String → SMILES → Fingerprint) (m : SMILES),
      isomerMeta countMod atomCount "C7H8N2O2" m =
        isomer_c7h8n2o2 countMod atomCount m ∧
      medianMeta fps
        (MedianConfig.mk tadalafil_smiles sildenafil_smiles "ECFP6" "ECFP6"
          none none "geometric") m = median2 fps m := by
  intro countMod atomCount fps m
  constructor
  · rw [isomerMeta, isomer_c7h8n2o2, parseFormula_C7H8N2O2]
  · simp [medianMeta, median2, meansByName, applyModifier]

/-- C6: calling an oracle mutates no visible state: after any sequence of
oracle calls the variable `smiles_lst` is unchanged, and every call in the
sequence was evaluated on that same unchanged list. -/
theorem oracle_call_preserves_state :
    ∀ (oracles : List (List SMILES → OracleOutput)) (st : NotebookState),
      (runSteps oracles st).smiles_lst = st.smiles_lst ∧
      (runSteps oracles st).printed =
        st.printed ++ oracles.map (fun o => o st.smiles_lst) := by
  intro oracles
  induction oracles with
  | nil => intro st; simp [runSteps]
  | cons o rest ih =>
      intro st
      have h := ih (runStep o st)
      refine ⟨?_, ?_⟩
      · rw [runSteps, h.1]; rfl
      · rw [runSteps, h.2]; simp [runStep]

/-- C10: rule-based oracles are deterministic: two successive calls of the
same oracle in the notebook session print the same result; in particular two
single-SMILES calls of the same scoring function print the same number. -/
theorem oracle_deterministic :
    ∀ (o : List SMILES → OracleOutput) (score : SMILES → ℚ) (s : SMILES)
      (st : NotebookState),
      (runSteps [o, o] st).printed =
        st.printed ++ [o st.smiles_lst, o st.smiles_lst] ∧
      (runSteps [fun _ => oracleCall score (OracleInput.single s),
                 fun _ => oracleCall score (OracleInput.single s)] st).printed =
        st.printed ++ [OracleOutput.single (score s), OracleOutput.single (score s)] := by
  intro o score s st
  constructor <;> simp [runSteps, runStep, oracleCall]

theorem instantiateN_stable {A : Type _} (fetch a : A) (d : ℕ) :
    ∀ k, instantiateN fetch k (OracleEnv.mk (some a) d) = OracleEnv.mk (some a) d := by
  intro k
  induction k with
  | zero => rfl
  | succ n ih => simpa [instantiateN, instantiateOracle] using ih

/-- C7: a model-backed oracle downloads its model artifact at most once: the
first instantiation downloads it and saves the local copy, and every
subsequent instantiation loads the local copy and never downloads again. -/
theorem model_downloaded_at_most_once :
    ∀ {A : Type} (fetch : A) (n : ℕ),
      (instantiateN fetch n (OracleEnv.mk none 0)).downloads = min n 1 ∧
      (instantiateN fetch n (OracleEnv.mk none 0)).localCopy =
        (if n = 0 then none else some fetch) := by
  intro A fetch n
  cases n with
  | zero => simp [instantiateN]
  | succ m =>
      have h : instantiateN fetch (m + 1) (OracleEnv.mk none 0) =
          OracleEnv.mk (some fetch) 1 := by
        rw [instantiateN]
        exact instantiateN_stable fetch fetch 1 m
      rw [h]
      constructor
      · simp [Nat.min_def]
      · simp

/-! ### Novelty and uniqueness: self-comparison and duplication laws -/

/-- C8 counterexample: at the empty list, novelty with generated = training
does not return 0: the fraction of an empty generated set is undefined (a
division by zero in the library). -/
theorem novelty_self_counterexample :
    novelty (fun s => s) ([] : List SMILES) [] ≠ some 0 := by
  simp [novelty]

/-- C8 (amended): for every nonempty list L of SMILES strings, the novelty
oracle called with generated = training = L returns 0. -/
theorem novelty_self_eq_zero :
    ∀ (canon : SMILES → SMILES) (L : List SMILES), L ≠ [] →
      novelty canon L L = some 0 := by
  intro canon L hL
  have hne : ((L.map canon).dedup).length ≠ 0 := by
    simp [List.length_eq_zero, List.dedup_eq_nil, hL]
  have hfil : ((L.map canon).dedup).filter
      (fun s => decide (s ∉ (L.map canon).dedup)) = [] := by
    rw [List.filter_eq_nil_iff]
    intro a ha
    simp [ha]
  simp [novelty, hne, hfil]

/-- C9 counterexample: at the empty list, the uniqueness oracle applied to
L ++ L does not return 0.5: the fraction of an empty batch is undefined (a
division by zero in the library). -/
theorem uniqueness_doubled_counterexample :
    uniqueness (fun s => s) (([] : List SMILES) ++ []) ≠ some (1 / 2) := by
  simp [uniqueness]

/-- C9 (amended): for every nonempty list L of valid SMILES strings with
pairwise-distinct canonical forms, the uniqueness oracle on L ++ L returns
0.5, uniqueness on L returns 1, and the former is the latter halved. -/
theorem uniqueness_doubled :
    ∀ (canon : SMILES → SMILES) (isValid : SMILES → Bool) (L : List SMILES),
      L ≠ [] → (∀ s ∈ L, isValid s = true) → (L.map canon).Nodup →
      uniqueness canon (L ++ L) = some (1 / 2) ∧
      uniqueness canon L = some 1 ∧
      uniqueness canon (L ++ L) = (uniqueness canon L).map (fun u => u / 2) := by
  intro canon isValid L hL _hv hd
  have hn : L.length ≠ 0 := by simpa [List.length_eq_zero] using hL
  have hded : ((L.map canon).dedup).length = L.length := by
    rw [List.dedup_eq_self.mpr hd, List.length_map]
  have hdd : (((L ++ L).map canon).dedup).length = L.length := by
    rw [List.map_append]
    have h1 : (((L.map canon) ++ (L.map canon)).dedup).length =
        ((L.map canon) ++ (L.map canon)).toFinset.card :=
      (List.card_toFinset _).symm
    rw [h1, List.toFinset_append, Finset.union_self, List.card_toFinset, hded]
  have hq : ((L.length : ℚ)) ≠ 0 := by exact_mod_cast hn
  have hcond : ¬((L ++ L).length = 0) := by
    rw [List.length_append]
    omega
  have h2 : uniqueness canon (L ++ L) = some (1 / 2) := by
    rw [uniqueness, if_neg hcond, hdd]
    congr 1
    rw [List.length_append]
    push_cast
    field_simp
    ring
  have h1' : uniqueness canon L = some 1 := by
    rw [uniqueness, if_neg hn, hded, div_self hq]
  exact ⟨h2, h1', by rw [h2, h1']; norm_num⟩

/-- Concrete instantiation of `uniqueness_doubled` at a two-element list. -/
theorem uniqueness_doubled_witness :
    (["C", "N"] : List SMILES) ≠ [] ∧
    (∀ s ∈ (["C", "N"] : List SMILES), (fun _ : SMILES => true) s = true) ∧
    ((["C", "N"] : List SMILES).map (fun s => s)).Nodup ∧
    uniqueness (fun s => s) (["C", "N"] ++ ["C", "N"]) = some (1 / 2) :=
  ⟨by decide, by decide, by decide,
    (uniqueness_doubled (fun s => s) (fun _ => true) ["C", "N"] (by decide)
      (by decide) (by decide)).1⟩

/-- Concrete instantiation of `novelty_self_eq_zero` at a one-element list. -/
theorem novelty_self_eq_zero_witness :
    (["CCO"] : List SMILES) ≠ [] ∧ novelty (fun s => s) ["CCO"] ["CCO"] = some 0 :=
  ⟨by decide, novelty_self_eq_zero (fun s => s) ["CCO"] (by decide)⟩

/-! ### Score ranges -/

theorem fracBound (num den : ℕ) (hle : num ≤ den) (hd : den ≠ 0) :
    0 ≤ ((num : ℚ) / (den : ℚ)) ∧ ((num : ℚ) / (den : ℚ)) ≤ 1 := by
  have hdpos : (0 : ℚ) < (den : ℚ) := by exact_mod_cast Nat.pos_of_ne_zero hd
  constructor
  · positivity
  · rw [div_le_one hdpos]
    exact_mod_cast hle

theorem listVar_nonneg (l : List ℝ) : 0 ≤ listVar l := by
  rw [listVar]
  apply div_nonneg
  · apply List.sum_nonneg
    intro x hx
    obtain ⟨y, _, rfl⟩ := List.mem_map.mp hx
    positivity
  · positivity

theorem frechetGauss_nonneg (m1 v1 m2 v2 : ℝ) (h1 : 0 ≤ v1) (h2 : 0 ≤ v2) :
    0 ≤ frechetGauss m1 v1 m2 v2 := by
  rw [frechetGauss, Real.sqrt_mul h1 v2]
  nlinarith [sq_nonneg (Real.sqrt v1 - Real.sqrt v2), Real.sq_sqrt h1, Real.sq_sqrt h2,
    sq_nonneg (m1 - m2)]

/-- C3: oracle outputs are normalized toward [0, 1] for the named scoring
functions — validity, uniqueness, novelty, and Tanimoto similarity, the
building block of the similarity, rediscovery, median and MPO oracles —
while the distance-style `fcd_distance` returns a non-negative value that is
unbounded above. -/
theorem oracle_score_range :
    ∀ (isValid : SMILES → Bool) (canon : SMILES → SMILES) (a b : Fingerprint)
      (l gen train : List SMILES) (d : ℕ) (feat : SMILES → Fin d → ℝ)
      (q : ℚ) (r : ℝ),
      (validity isValid l = some q → 0 ≤ q ∧ q ≤ 1) ∧
      (uniqueness canon l = some q → 0 ≤ q ∧ q ≤ 1) ∧
      (novelty canon gen train = some q → 0 ≤ q ∧ q ≤ 1) ∧
      (0 ≤ tanimoto a b ∧ tanimoto a b ≤ 1) ∧
      (fcd_distance d feat gen train = some r → 0 ≤ r) ∧
      (∀ B : ℝ, ∃ (feat2 : SMILES → Fin 1 → ℝ) (gen2 train2 : List SMILES) (r2 : ℝ),
        fcd_distance 1 feat2 gen2 train2 = some r2 ∧ B < r2) := by
  intro isValid canon a b l gen train d feat q r
  refine ⟨?_, ?_, ?_, ?_, ?_, ?_⟩
  · intro hv
    rw [validity] at hv
    by_cases h : l.length = 0
    · rw [if_pos h] at hv; exact absurd hv (by simp)
    · rw [if_neg h] at hv
      rw [← Option.some.inj hv]
      exact fracBound _ _ (List.countP_le_length isValid) h
  · intro hv
    rw [uniqueness] at hv
    by_cases h : l.length = 0
    · rw [if_pos h] at hv; exact absurd hv (by simp)
    · rw [if_neg h] at hv
      rw [← Option.some.inj hv]
      refine fracBound _ _ ?_ h
      calc ((l.map canon).dedup).length ≤ (l.map canon).length :=
            (List.dedup_sublist _).length_le
        _ = l.length := List.length_map l canon
  · intro hv
    rw [novelty] at hv
    by_cases h : ((gen.map canon).dedup).length = 0
    · rw [if_pos h] at hv; exact absurd hv (by simp)
    · rw [if_neg h] at hv
      rw [← Option.some.inj hv]
      exact fracBound _ _ (List.length_filter_le _ _) h
  · rw [tanimoto]
    by_cases h : (a ∪ b).card = 0
    · rw [if_pos h]; norm_num
    · rw [if_neg h]
      exact fracBound _ _ (Finset.card_le_card Finset.inter_subset_union) h
  · intro hf
    rw [fcd_distance] at hf
    by_cases h : gen.length = 0 ∨ train.length = 0
    · rw [if_pos h] at hf; exact absurd hf (by simp)
    · rw [if_neg h] at hf
      rw [← Option.some.inj hf]
      apply Finset.sum_nonneg
      intro i _
      exact frechetGauss_nonneg _ _ _ _ (listVar_nonneg _) (listVar_nonneg _)
  · intro B
    refine ⟨fun s _ => if s = "a" then |B| + 1 else 0, ["a"], ["b"], (|B| + 1) ^ 2,
      ?_, ?_⟩
    · rw [fcd_distance, if_neg (by simp)]
      rw [Fin.sum_univ_one]
      simp [listMean, listVar, frechetGauss, Real.sqrt_zero]
    · nlinarith [abs_nonneg B, le_abs_self B]

/-- Concrete instantiation of `oracle_score_range`, discharging each of its
hypotheses on evaluated inputs. -/
theorem oracle_score_range_witness :
    validity (fun _ => true) ["CO"] = some 1 ∧ ((0:ℚ) ≤ 1 ∧ (1:ℚ) ≤ 1) ∧
    uniqueness (fun s => s) ["CO"] = some 1 ∧
    novelty (fun s => s) ["CO"] ["CO"] = some 0 ∧ ((0:ℚ) ≤ 0 ∧ (0:ℚ) ≤ 1) ∧
    fcd_distance 0 (fun _ i => i.elim0) ["CO"] ["CO"] = some 0 ∧ ((0:ℝ) ≤ 0) := by
  have hval : validity (fun _ => true) ["CO"] = some 1 := by
    norm_num [validity, List.countP_cons, List.countP_nil]
  have huni : uniqueness (fun s => s) ["CO"] = some 1 := by
    norm_num [uniqueness]
  have hnov : novelty (fun s => s) ["CO"] ["CO"] = some 0 := by
    norm_num [novelty]
  have hfcd : fcd_distance 0 (fun _ i => i.elim0) ["CO"] ["CO"] = some 0 := by
    rw [fcd_distance, if_neg (by simp)]
    simp
  refine ⟨hval, ?_, huni, hnov, ?_, hfcd, ?_⟩
  · exact (oracle_score_range (fun _ => true) (fun s => s) ∅ ∅ ["CO"] ["CO"] ["CO"]
      0 (fun _ i => i.elim0) 1 0).1 hval
  · exact (oracle_score_range (fun _ => true) (fun s => s) ∅ ∅ ["CO"] ["CO"] ["CO"]
      0 (fun _ i => i.elim0) 0 0).2.2.1 hnov
  · have hu := (oracle_score_range (fun _ => true) (fun s => s) ∅ ∅ ["CO"] ["CO"]
      ["CO"] 0 (fun _ i => i.elim0) 1 0).2.1 huni
    exact (oracle_score_range (fun _ => true) (fun s => s) ∅ ∅ ["CO"] ["CO"] ["CO"]
      0 (fun _ i => i.elim0) 0 0).2.2.2.2.1 hfcd

/-! ### The notebook's recorded calls all succeed -/

/-- C5: every oracle call demonstrated in the notebook completes on the
success path and returns a value: on the notebook's concrete inputs each
distribution-learning metric is defined (returns `some`), and the single-
and batch-SMILES oracle calls return a number resp. a list of numbers of the
input's length. -/
theorem notebook_calls_succeed :
    ∀ (isValid : SMILES → Bool) (canon : SMILES → SMILES)
      (fp : SMILES → Fingerprint) (desc : SMILES → ℤ) (d : ℕ)
      (feat : SMILES → Fin d → ℝ) (gsk3 qed : SMILES → ℚ),
      (validity isValid notebook_smiles_lst).isSome = true ∧
      (novelty canon notebook_smiles_lst notebook_smiles_lst).isSome = true ∧
      (diversity fp notebook_smiles_lst).isSome = true ∧
      (uniqueness canon (notebook_smiles_lst ++ notebook_smiles_lst)).isSome = true ∧
      (kl_divergence desc notebook_smiles_lst notebook_smiles_lst).isSome = true ∧
      (fcd_distance d feat notebook_smiles_lst notebook_smiles_lst).isSome = true ∧
      oracleCall gsk3 (OracleInput.single osimertinib_smiles) =
        OracleOutput.single (gsk3 osimertinib_smiles) ∧
      oracleCall qed (OracleInput.single osimertinib_smiles) =
        OracleOutput.single (qed osimertinib_smiles) ∧
      oracleCall gsk3 (OracleInput.batch notebook_smiles_lst) =
        OracleOutput.batch (notebook_smiles_lst.map gsk3) ∧
      (notebook_smiles_lst.map gsk3).length = 4 := by
  intro isValid canon fp desc d feat gsk3 qed
  have hne : ((notebook_smiles_lst.map canon).dedup).length ≠ 0 := by
    simp [List.length_eq_zero, List.dedup_eq_nil, notebook_smiles_lst]
  refine ⟨?_, ?_, ?_, ?_, ?_, ?_, rfl, rfl, ?_, ?_⟩
  · simp [validity, notebook_smiles_lst]
  · simp [novelty, hne]
  · simp [diversity, pairList, notebook_smiles_lst]
  · simp [uniqueness, notebook_smiles_lst]
  · simp [kl_divergence, notebook_smiles_lst]
  · simp [fcd_distance, notebook_smiles_lst]
  · simp [oracleCall, evalBatch_eq_map]
  · simp [notebook_smiles_lst]

end TDC
